import Mathlib

/-!
Shallow embedding of the `loki-sink` repository (Rust sources `src/lib.rs`,
`src/sink.rs`, `src/property_bag.rs`, `src/label_stack.rs`).

The repository contains two variants of the sink:
* `lib.rs` holds a self-contained older variant (`LokiSink` buffering
  `LokiRequest` values, draining the whole buffer on flush, holding the
  buffer write guard across the HTTP POST, filtering records whose target
  contains "ureq", and unwrapping the optional global label map); and
* `sink.rs` (together with `property_bag.rs`) holds the newer variant
  (`LokiSink` buffering `LokiStream` values, draining at most `BATCH_LIMIT`
  entries, dropping the buffer lock before the POST, no target filter, and
  defaulting absent labels to an empty map).

Both variants are embedded here; definitions prefixed `sink...` follow
`sink.rs` and definitions prefixed `lib...` follow `lib.rs`.

Modelling conventions:
* `serde_json::Value` is the inductive `Json` below.
* The `RwLock<HashMap<String, Value>>` property bag is an association list
  with at most one entry per key; `HashMap::insert` / `HashMap::remove`
  are `bagInsert` / `bagRemove`.
* Panics (`unwrap` / `expect`) on user-visible paths are modelled as
  `Except.error` / `Option.none` results, i.e. failures that propagate
  synchronously to the caller.
* Lock acquisition and the network POST are modelled as an event trace:
  flush is parameterised by whether `try_write` succeeds (`lockFree`) and
  whether the POST succeeds (`netOk`), and returns the new buffer together
  with the list of `Event`s it performed, in program order.
* The JSON-encoded log line (`serde_json::to_string` of the snapshotted
  map) is modelled as the snapshot map itself; no claim inspects the
  textual encoding, and the encoding does not affect buffering, batching
  or lock behaviour.
-/

/-- JSON values, as in `serde_json::Value`. -/
inductive Json where
  | null : Json
  | bool : Bool → Json
  | num : Int → Json
  | str : String → Json
  | arr : List Json → Json
  | obj : List (String × Json) → Json

/-- Lookup in the property map, as in `HashMap::get`. -/
def bagGet : List (String × Json) → String → Option Json
  | [], _ => none
  | (k2, v) :: rest, k => if k2 = k then some v else bagGet rest k

/-- Insert-or-overwrite, as in `HashMap::insert` (the map holds at most one
entry per key; entry order is irrelevant to every operation). -/
def bagInsert : List (String × Json) → String → Json → List (String × Json)
  | [], k, v => [(k, v)]
  | (k2, v2) :: rest, k, v =>
      if k2 = k then (k, v) :: rest else (k2, v2) :: bagInsert rest k v

/-- Removal by key, as in `HashMap::remove`. -/
def bagRemove : List (String × Json) → String → List (String × Json)
  | [], _ => []
  | (k2, v) :: rest, k =>
      if k2 = k then bagRemove rest k else (k2, v) :: bagRemove rest k

/-- Error raised when `serde_json::to_value` fails inside
`PropertyBag::push` (the `.unwrap()` / `.expect("unable to serialize")`
panic, which propagates synchronously to the caller). -/
inductive PushError where
  | serializationFailure : PushError

/-- Guard object returned by `PropertyBag::push` (`PropertyStackGuard` in
`property_bag.rs`, `LabelStackGuard` in `lib.rs`): it captures only the
pushed name. -/
structure PropertyStackGuard where
  key : String

/-- `PropertyBag::push(name, object)`.  The serialization outcome of the
arbitrary `Serialize` object is the parameter `ser` (serde succeeds with
`some v` or fails with `none`); on failure the code panics, modelled as a
synchronous error to the caller.  On success the pair is inserted and a
guard capturing the name is returned. -/
def pushProp (bag : List (String × Json)) (name : String) (ser : Option Json) :
    Except PushError (List (String × Json) × PropertyStackGuard) :=
  match ser with
  | none => Except.error PushError.serializationFailure
  | some v => Except.ok (bagInsert bag name v, ⟨name⟩)

/-- `Drop for PropertyStackGuard`: remove the entry whose key equals the
guard's captured name, unconditionally. -/
def guardDrop (bag : List (String × Json)) (g : PropertyStackGuard) :
    List (String × Json) :=
  bagRemove bag g.key

theorem bagGet_bagRemove_self (m : List (String × Json)) (k : String) :
    bagGet (bagRemove m k) k = none := by
  induction m with
  | nil => rfl
  | cons p rest ih =>
    obtain ⟨k2, v⟩ := p
    by_cases h : k2 = k
    · simp [bagRemove, h, ih]
    · simp [bagRemove, bagGet, h, ih]

theorem bagGet_bagRemove_ne (m : List (String × Json)) (k k2 : String)
    (h : k2 ≠ k) : bagGet (bagRemove m k) k2 = bagGet m k2 := by
  induction m with
  | nil => rfl
  | cons p rest ih =>
    obtain ⟨k3, v⟩ := p
    by_cases h3 : k3 = k
    · rw [bagRemove, if_pos h3, bagGet, if_neg (fun hh => h (hh.symm.trans h3))]
      exact ih
    · rw [bagRemove, if_neg h3, bagGet, bagGet]
      by_cases h2 : k3 = k2
      · rw [if_pos h2, if_pos h2]
      · rw [if_neg h2, if_neg h2]
        exact ih

/-- C4: a guard removes the entry keyed by its captured name
unconditionally (other names are untouched), and in the nested same-name
scenario — `push n v₁` giving the outer guard, then `push n v₂` giving the
inner guard — dropping the inner guard leaves `n` absent from the store
even though the outer guard is still live. -/
theorem guard_drop_unconditional_removal
    (bag : List (String × Json)) (n : String) (v1 v2 : Json)
    (b1 b2 : List (String × Json)) (g1 g2 : PropertyStackGuard)
    (_h1 : pushProp bag n (some v1) = Except.ok (b1, g1))
    (h2 : pushProp b1 n (some v2) = Except.ok (b2, g2)) :
    (∀ (b : List (String × Json)) (g : PropertyStackGuard),
        bagGet (guardDrop b g) g.key = none ∧
        ∀ k, k ≠ g.key → bagGet (guardDrop b g) k = bagGet b k) ∧
    bagGet (guardDrop b2 g2) n = none := by
  constructor
  · intro b g
    exact ⟨bagGet_bagRemove_self b g.key,
      fun k hk => bagGet_bagRemove_ne b g.key k hk⟩
  · have hg2 : g2.key = n := by
      simp [pushProp] at h2
      rw [← h2.2]
    rw [guardDrop, hg2]
    exact bagGet_bagRemove_self b2 n

theorem guard_drop_unconditional_removal_witness :
    bagGet
      (guardDrop
        (bagInsert (bagInsert [] "CorrelationId" (Json.num 1))
          "CorrelationId" (Json.num 2))
        ⟨"CorrelationId"⟩)
      "CorrelationId" = none :=
  (guard_drop_unconditional_removal [] "CorrelationId" (Json.num 1)
    (Json.num 2) (bagInsert [] "CorrelationId" (Json.num 1))
    (bagInsert (bagInsert [] "CorrelationId" (Json.num 1)) "CorrelationId"
      (Json.num 2))
    ⟨"CorrelationId"⟩ ⟨"CorrelationId"⟩ rfl rfl).2

/-- One stream entry: the sink's label set together with the
(timestamp, log-line) pairs.  The log line — in Rust the
`serde_json::to_string` encoding of the snapshotted property map — is
modelled as the snapshot map itself. -/
structure LokiStream where
  stream : List (String × String)
  values : List (String × List (String × Json))

/-- Top-level request envelope sent to Loki. -/
structure LokiRequest where
  streams : List LokiStream

/-- Observable actions performed by `flush`: taking and dropping the
buffer's write guard, the HTTP POST, and the `eprintln!` on a failed
POST. -/
inductive Event where
  | acquireLock : Event
  | releaseLock : Event
  | netSend : LokiRequest → Event
  | stderrPrint : Event

def isSend : Event → Bool
  | Event.netSend _ => true
  | _ => false

/-- Number of network calls recorded in an event trace. -/
def sentCount (evs : List Event) : Nat :=
  (evs.filter isSend).length

/-- Checks that no network send happens while the flush path holds the
buffer's write guard (`held` counts currently-held acquisitions). -/
def noSendWhileHeld : Nat → List Event → Bool
  | _, [] => true
  | held, Event.acquireLock :: rest => noSendWhileHeld (held + 1) rest
  | held, Event.releaseLock :: rest => noSendWhileHeld (held - 1) rest
  | held, Event.netSend _ :: rest => (held == 0) && noSendWhileHeld held rest
  | held, Event.stderrPrint :: rest => noSendWhileHeld held rest

/-- `BATCH_LIMIT` in `sink.rs`. -/
def BATCH_LIMIT : Nat := 1000

/-- `BUFFER_FLUSH_LIMIT` in `lib.rs`. -/
def BUFFER_FLUSH_LIMIT : Nat := 1000

/-- `LokiSink::flush` from `sink.rs`.  `lockFree` is the outcome of
`self.buffer.try_write()` (`false` = contended, return at once); `netOk`
is the outcome of `ureq::post(..).send_json(..)`.  `len().clamp(0,
BATCH_LIMIT)` on a `usize` is `min len BATCH_LIMIT`; `drain(..batch_size)`
removes the first `batch_size` entries in order; `drop(req)` releases the
write guard before the POST. -/
def sinkFlush (lockFree netOk : Bool) (buf : List LokiStream) :
    List LokiStream × List Event :=
  match lockFree with
  | false => (buf, [])
  | true =>
    if min buf.length BATCH_LIMIT = 0 then
      (buf, [Event.acquireLock, Event.releaseLock])
    else
      (buf.drop (min buf.length BATCH_LIMIT),
        [Event.acquireLock, Event.releaseLock,
          Event.netSend ⟨buf.take (min buf.length BATCH_LIMIT)⟩] ++
          (if netOk then [] else [Event.stderrPrint]))

/-- `LokiSink::flush` from `lib.rs`.  No emptiness check and no batch
limit: `drain(..)` empties the whole buffer and the flattened streams are
posted; the write guard `req` stays alive until the end of the function,
so it is released only after the POST (and after the `eprintln!` on
failure). -/
def libFlush (lockFree netOk : Bool) (buf : List LokiRequest) :
    List LokiRequest × List Event :=
  match lockFree with
  | false => (buf, [])
  | true =>
    ([],
      [Event.acquireLock,
        Event.netSend ⟨(buf.map LokiRequest.streams).flatten⟩] ++
        (if netOk then [] else [Event.stderrPrint]) ++
        [Event.releaseLock])

/-- Sample stream entry used in witnesses and counterexamples. -/
def sampleStream : LokiStream :=
  ⟨[("Application", "ExampleConsoleApp")], [("1700000000000000000", [])]⟩

/-- Sample buffered request (lib.rs variant) used in witnesses and
counterexamples. -/
def sampleReq : LokiRequest :=
  ⟨[sampleStream]⟩

/-- C7: a flush call made while the buffer's write lock is unavailable
returns immediately, leaves the buffer unchanged and performs no action at
all (in particular no network call), in both sink variants. -/
theorem flush_lock_unavailable_noop (netOk : Bool)
    (bufS : List LokiStream) (bufL : List LokiRequest) :
    sinkFlush false netOk bufS = (bufS, []) ∧
    libFlush false netOk bufL = (bufL, []) :=
  ⟨rfl, rfl⟩

/-- C1 (amended): the sink.rs flush on a non-empty buffer drains exactly
`min length BATCH_LIMIT` entries from the front in order (the drained
batch concatenated with the remaining buffer is the original buffer, and
the batch has at most `BATCH_LIMIT` entries); the lib.rs flush instead
drains the entire buffer, however large. -/
theorem flush_drain_batching (netOk : Bool) (buf : List LokiStream)
    (h : buf ≠ []) :
    (sinkFlush true netOk buf).1 = buf.drop (min buf.length BATCH_LIMIT) ∧
    (sinkFlush true netOk buf).2 =
      [Event.acquireLock, Event.releaseLock,
        Event.netSend ⟨buf.take (min buf.length BATCH_LIMIT)⟩] ++
      (if netOk then [] else [Event.stderrPrint]) ∧
    buf.take (min buf.length BATCH_LIMIT) ++ (sinkFlush true netOk buf).1 = buf ∧
    (buf.take (min buf.length BATCH_LIMIT)).length ≤ BATCH_LIMIT ∧
    (∀ bufL : List LokiRequest, (libFlush true netOk bufL).1 = []) := by
  have hB : BATCH_LIMIT = 1000 := rfl
  have hlen : buf.length ≠ 0 := by
    intro hl
    exact h (List.eq_nil_of_length_eq_zero hl)
  have hne : ¬ (min buf.length BATCH_LIMIT = 0) := by omega
  have hstep : sinkFlush true netOk buf =
      (buf.drop (min buf.length BATCH_LIMIT),
        [Event.acquireLock, Event.releaseLock,
          Event.netSend ⟨buf.take (min buf.length BATCH_LIMIT)⟩] ++
        (if netOk then [] else [Event.stderrPrint])) := by
    simp only [sinkFlush]
    rw [if_neg hne]
  rw [hstep]
  refine ⟨rfl, rfl, List.take_append_drop _ buf, ?_, fun bufL => rfl⟩
  rw [List.length_take]
  omega

theorem flush_drain_batching_witness :
    (sinkFlush true true [sampleStream]).1 =
      [sampleStream].drop (min [sampleStream].length BATCH_LIMIT) :=
  (flush_drain_batching true [sampleStream] (List.cons_ne_nil _ _)).1

/-- C1 counterexample: the lib.rs flush, called with the lock available on
a buffer of 1001 entries (one more than the batch limit), leaves the
buffer empty — the entry beyond the batch limit does not remain for the
next flush as the claim states. -/
theorem lib_flush_exceeds_batch_limit :
    BATCH_LIMIT < (List.replicate 1001 sampleReq).length ∧
    (libFlush true true (List.replicate 1001 sampleReq)).1 = [] ∧
    ((List.replicate 1001 sampleReq).drop BATCH_LIMIT).length = 1 := by
  refine ⟨?_, rfl, ?_⟩
  · rw [List.length_replicate]
    exact Nat.lt_succ_self 1000
  · rw [List.length_drop, List.length_replicate]
    rfl

/-- C2 (amended): the sink.rs flush never performs the network send while
holding the buffer's write lock (`drop(req)` precedes the POST), for every
lock and network outcome; the lib.rs flush, by contrast, performs the POST
while the write guard is still held whenever it acquires the lock. -/
theorem flush_lock_release_before_send (lockFree netOk : Bool)
    (bufS : List LokiStream) (bufL : List LokiRequest) :
    noSendWhileHeld 0 (sinkFlush lockFree netOk bufS).2 = true ∧
    noSendWhileHeld 0 (libFlush true netOk bufL).2 = false := by
  constructor
  · cases lockFree with
    | false => rfl
    | true =>
      by_cases h : min bufS.length BATCH_LIMIT = 0
      · simp [sinkFlush, h, noSendWhileHeld]
      · cases netOk <;> simp [sinkFlush, h, noSendWhileHeld]
  · cases netOk <;> rfl

/-- C2 counterexample: a lib.rs flush execution that reaches the network
send performs it before releasing the buffer's write lock. -/
theorem lib_flush_sends_while_locked :
    noSendWhileHeld 0 (libFlush true true [sampleReq]).2 = false :=
  rfl

/-- C8 (amended): a sink.rs flush that acquires the lock on an empty
buffer returns without a network call; the lib.rs flush has no emptiness
check and posts an empty payload even when the buffer is empty. -/
theorem flush_empty_buffer_behavior (netOk : Bool) :
    sinkFlush true netOk [] = ([], [Event.acquireLock, Event.releaseLock]) ∧
    sentCount (sinkFlush true netOk []).2 = 0 ∧
    (libFlush true netOk []).1 = [] ∧
    sentCount (libFlush true netOk []).2 = 1 := by
  refine ⟨rfl, rfl, rfl, ?_⟩
  cases netOk <;> rfl

/-- C8 counterexample: the lib.rs flush, with the lock acquired and the
buffer empty, performs a network call (posting an empty payload). -/
theorem lib_flush_sends_on_empty :
    sentCount (libFlush true true []).2 = 1 ∧
    (Event.netSend ⟨[]⟩) ∈ (libFlush true true []).2 := by
  exact ⟨rfl, by simp [libFlush]⟩

/-- Log levels of the `log` crate; `Display` gives the uppercase name. -/
inductive Level where
  | error : Level
  | warn : Level
  | info : Level
  | debug : Level
  | trace : Level

def Level.display : Level → String
  | Level.error => "ERROR"
  | Level.warn => "WARN"
  | Level.info => "INFO"
  | Level.debug => "DEBUG"
  | Level.trace => "TRACE"

/-- Rust `str::to_ascii_lowercase` (`Char.toLower` lowers exactly the
ASCII uppercase letters). -/
def asciiLower (s : String) : String :=
  String.map Char.toLower s

/-- A `log::Record`: message text (the `format!` rendering of the args),
source line, target, source file and severity level. -/
structure LogRecord where
  message : String
  line : Option Nat
  target : String
  file : Option String
  level : Level

/-- Serde serialization of `Option<u32>` (`None` becomes `null`). -/
def jsonOfOptNat : Option Nat → Json
  | none => Json.null
  | some n => Json.num (Int.ofNat n)

/-- Serde serialization of `Option<&str>` (`None` becomes `null`). -/
def jsonOfOptStr : Option String → Json
  | none => Json.null
  | some s => Json.str s

/-- The five standard properties pushed by `log` before the snapshot —
Message, LineNumber, Target, File, lowercase level — inserted in program
order (their serializations never fail). -/
def insertStd (r : LogRecord) (bag : List (String × Json)) :
    List (String × Json) :=
  bagInsert
    (bagInsert
      (bagInsert
        (bagInsert (bagInsert bag "Message" (Json.str r.message))
          "LineNumber" (jsonOfOptNat r.line))
        "Target" (Json.str r.target))
      "File" (jsonOfOptStr r.file))
    "level" (Json.str (asciiLower r.level.display))

/-- The five standard-property guards drop at the end of `log`, in reverse
declaration order, each removing its name unconditionally. -/
def removeStd (bag : List (String × Json)) : List (String × Json) :=
  bagRemove
    (bagRemove
      (bagRemove (bagRemove (bagRemove bag "level") "File") "Target")
      "LineNumber")
    "Message"

/-- Rust `str::contains`: some contiguous character run of the haystack
equals the needle. -/
def strContains (hay needle : String) : Bool :=
  (List.range (hay.length + 1)).any
    (fun i => (hay.toList.drop i).take needle.length == needle.toList)

/-- `LokiSink::log` from `sink.rs`: always enabled, no target filter;
pushes the five standard properties, snapshots the bag as the log line,
appends one `LokiStream` carrying the sink's labels, and when the buffer
length has reached `BATCH_LIMIT` calls `flush` inline; the standard
property guards drop at the end of the call.  Returns (bag after the
guard drops, buffer, events). -/
def sinkLog (labels : List (String × String)) (r : LogRecord) (t : String)
    (lockFree netOk : Bool) (bag : List (String × Json))
    (buf : List LokiStream) :
    List (String × Json) × List LokiStream × List Event :=
  let bag1 := insertStd r bag
  let buf1 := buf ++ [⟨labels, [(t, bag1)]⟩]
  let flushed :=
    if buf1.length ≥ BATCH_LIMIT then sinkFlush lockFree netOk buf1
    else (buf1, [])
  (removeStd bag1, flushed.1, flushed.2)

/-- `LokiSink::log` from `lib.rs`: drops records whose target contains
"ureq" before any enrichment; otherwise pushes the standard properties,
snapshots, and unwraps the optional global label map — an absent map makes
the call panic (result `none`); on success it appends one single-stream
`LokiRequest` and flushes inline at `BUFFER_FLUSH_LIMIT`. -/
def libLog (globalLabels : Option (List (String × String))) (r : LogRecord)
    (t : String) (lockFree netOk : Bool) (bag : List (String × Json))
    (buf : List LokiRequest) :
    Option (List (String × Json) × List LokiRequest × List Event) :=
  if strContains r.target "ureq" then
    some (bag, buf, [])
  else
    let bag1 := insertStd r bag
    match globalLabels with
    | none => none
    | some gl =>
      let buf1 := buf ++ [⟨[⟨gl, [(t, bag1)]⟩]⟩]
      let flushed :=
        if buf1.length ≥ BUFFER_FLUSH_LIMIT then libFlush lockFree netOk buf1
        else (buf1, [])
      some (removeStd bag1, flushed.1, flushed.2)

/-- `LokiSink::new` from `sink.rs`: an absent label map becomes the empty
map. -/
def sinkNewLabels : Option (List (String × String)) → List (String × String)
  | some labels => labels
  | none => []

/-- Sample non-filtered record used in witnesses and counterexamples. -/
def sampleRec : LogRecord :=
  ⟨"Test", some 10, "app::main", some "main.rs", Level.info⟩

/-- Sample record whose target names the HTTP transport dependency. -/
def ureqRec : LogRecord :=
  ⟨"tls handshake", none, "ureq::pool", none, Level.debug⟩

/-- C3 (amended): in the lib.rs variant, a record whose target contains
"ureq" is dropped before enrichment — `log` leaves the property bag and
the buffer unchanged and performs no action — so such records never enter
that buffer; the sink.rs variant performs no target filtering. -/
theorem lib_log_drops_ureq_records
    (gl : Option (List (String × String))) (r : LogRecord) (t : String)
    (lockFree netOk : Bool) (bag : List (String × Json))
    (buf : List LokiRequest) (h : strContains r.target "ureq" = true) :
    libLog gl r t lockFree netOk bag buf = some (bag, buf, []) := by
  simp [libLog, h]

theorem lib_log_drops_ureq_records_witness :
    libLog none ureqRec "1" true true [] [] = some ([], [], []) :=
  lib_log_drops_ureq_records none ureqRec "1" true true [] [] (by decide)

/-- C3 counterexample: the sink.rs `log` has no target filter — a record
whose target contains "ureq" is enriched (the snapshot maps Target to
"ureq::pool") and appended to the buffer. -/
theorem sink_log_buffers_ureq_record :
    strContains ureqRec.target "ureq" = true ∧
    (sinkLog [] ureqRec "1" true true [] []).2.1 =
      [⟨[], [("1", insertStd ureqRec [])]⟩] ∧
    bagGet (insertStd ureqRec []) "Target" = some (Json.str "ureq::pool") :=
  ⟨by decide, rfl, rfl⟩

/-- C10: the lib.rs sink constructed with `global_labels = None` panics in
`log()` on every non-filtered record (the `unwrap` of the absent label
map), whereas the sink.rs variant constructed with `None` gets the empty
label map and logs the record with an empty label set. -/
theorem lib_log_none_labels_panics (r : LogRecord) (t : String)
    (lockFree netOk : Bool) (bag : List (String × Json))
    (buf : List LokiRequest) (h : strContains r.target "ureq" = false) :
    libLog none r t lockFree netOk bag buf = none ∧
    sinkNewLabels none = [] ∧
    ∀ (bag2 : List (String × Json)) (buf2 : List LokiStream),
      buf2.length + 1 < BATCH_LIMIT →
      (sinkLog (sinkNewLabels none) r t lockFree netOk bag2 buf2).2.1 =
        buf2 ++ [⟨[], [(t, insertStd r bag2)]⟩] := by
  refine ⟨by simp [libLog, h], rfl, ?_⟩
  intro bag2 buf2 hlen
  have hnf : ¬ (BATCH_LIMIT ≤ buf2.length + 1) := by omega
  simp [sinkLog, sinkNewLabels, hnf]

theorem lib_log_none_labels_panics_witness :
    libLog none sampleRec "1" true true [] [] = none ∧
    (sinkLog (sinkNewLabels none) sampleRec "1" true true [] []).2.1 =
      [] ++ [⟨[], [("1", insertStd sampleRec [])]⟩] :=
  ⟨(lib_log_none_labels_panics sampleRec "1" true true [] [] (by decide)).1,
    (lib_log_none_labels_panics sampleRec "1" true true [] [] (by decide)).2.2
      [] [] (by decide)⟩

/-- C5 (amended): pushing a value that serde cannot represent as JSON
fails fast and synchronously to the caller, and pushing a representable
value never fails; flush swallows a network failure (the buffer ends up
exactly as after a successful send) and `log` with global labels present
never surfaces a failure — but push is not the only surfaced failure: the
lib.rs `log` panics to its caller when the sink was constructed without
global labels. -/
theorem push_serialization_error_surfacing :
    (∀ (bag : List (String × Json)) (name : String),
      pushProp bag name none = Except.error PushError.serializationFailure) ∧
    (∀ (bag : List (String × Json)) (name : String) (v : Json),
      pushProp bag name (some v) = Except.ok (bagInsert bag name v, ⟨name⟩)) ∧
    (∀ (lockFree : Bool) (buf : List LokiStream),
      (sinkFlush lockFree false buf).1 = (sinkFlush lockFree true buf).1) ∧
    (∀ (gl : List (String × String)) (r : LogRecord) (t : String)
        (lockFree netOk : Bool) (bag : List (String × Json))
        (buf : List LokiRequest),
      libLog (some gl) r t lockFree netOk bag buf ≠ none) ∧
    (∀ (r : LogRecord) (t : String) (lockFree netOk : Bool)
        (bag : List (String × Json)) (buf : List LokiRequest),
      strContains r.target "ureq" = false →
      libLog none r t lockFree netOk bag buf = none) := by
  refine ⟨fun bag name => rfl, fun bag name v => rfl, ?_, ?_, ?_⟩
  · intro lockFree buf
    cases lockFree with
    | false => rfl
    | true =>
      by_cases h : min buf.length BATCH_LIMIT = 0 <;> simp [sinkFlush, h]
  · intro gl r t lockFree netOk bag buf
    by_cases h : strContains r.target "ureq" <;> simp [libLog, h]
  · intro r t lockFree netOk bag buf h
    simp [libLog, h]

theorem push_serialization_error_surfacing_witness :
    pushProp [] "Age" none = Except.error PushError.serializationFailure ∧
    libLog none sampleRec "1" true true [] [] = none :=
  ⟨push_serialization_error_surfacing.1 [] "Age",
    push_serialization_error_surfacing.2.2.2.2 sampleRec "1" true true [] []
      (by decide)⟩

/-- C5 counterexample: a failure is surfaced to the caller at a place
other than push — `log()` in lib.rs panics on a plain (non-filtered)
record when the sink was constructed without global labels, so push is
not the only non-swallowed failure. -/
theorem lib_log_failure_outside_push :
    strContains sampleRec.target "ureq" = false ∧
    libLog none sampleRec "1" true true [] [] = none :=
  ⟨by decide, rfl⟩

/-- C9: when the network send in the sink.rs flush fails, the drained
batch is discarded — the resulting buffer equals the one left by a
successful send, namely the unflushed tail, with nothing re-inserted; and
since a buffer within the batch limit is drained whole, a flush after the
failed attempt (with new entries appended meanwhile) operates only on
those newly appended entries. -/
theorem flush_failure_discards_batch (buf extra : List LokiStream)
    (netOk2 : Bool) (hb : buf.length ≤ BATCH_LIMIT) (hx : extra ≠ [])
    (hxl : extra.length ≤ BATCH_LIMIT) :
    (sinkFlush true false buf).1 = (sinkFlush true true buf).1 ∧
    (sinkFlush true false buf).1 = buf.drop (min buf.length BATCH_LIMIT) ∧
    (sinkFlush true false buf).1 = [] ∧
    (sinkFlush true netOk2 ((sinkFlush true false buf).1 ++ extra)).2 =
      [Event.acquireLock, Event.releaseLock, Event.netSend ⟨extra⟩] ++
        (if netOk2 then [] else [Event.stderrPrint]) := by
  have hB : BATCH_LIMIT = 1000 := rfl
  have hmin : min buf.length BATCH_LIMIT = buf.length := by omega
  have h1 : (sinkFlush true false buf).1 =
      buf.drop (min buf.length BATCH_LIMIT) := by
    by_cases h0 : min buf.length BATCH_LIMIT = 0
    · have hl0 : buf.length = 0 := by omega
      have hbe : buf = [] := List.eq_nil_of_length_eq_zero hl0
      subst hbe
      rfl
    · simp [sinkFlush, h0]
  have h2 : (sinkFlush true true buf).1 =
      buf.drop (min buf.length BATCH_LIMIT) := by
    by_cases h0 : min buf.length BATCH_LIMIT = 0
    · have hl0 : buf.length = 0 := by omega
      have hbe : buf = [] := List.eq_nil_of_length_eq_zero hl0
      subst hbe
      rfl
    · simp [sinkFlush, h0]
  have hempty : (sinkFlush true false buf).1 = [] := by
    rw [h1, hmin, List.drop_length]
  refine ⟨h1.trans h2.symm, h1, hempty, ?_⟩
  rw [hempty, List.nil_append]
  have hxlen : extra.length ≠ 0 := by
    intro hz
    exact hx (List.eq_nil_of_length_eq_zero hz)
  have hx0 : ¬ (min extra.length BATCH_LIMIT = 0) := by omega
  have hminx : min extra.length BATCH_LIMIT = extra.length := by omega
  have hstep : sinkFlush true netOk2 extra =
      (extra.drop (min extra.length BATCH_LIMIT),
        [Event.acquireLock, Event.releaseLock,
          Event.netSend ⟨extra.take (min extra.length BATCH_LIMIT)⟩] ++
        (if netOk2 then [] else [Event.stderrPrint])) := by
    simp only [sinkFlush]
    rw [if_neg hx0]
  rw [hstep]
  simp only [hminx, List.take_length]

theorem flush_failure_discards_batch_witness :
    (sinkFlush true false [sampleStream]).1 = [] ∧
    (sinkFlush true true
        ((sinkFlush true false [sampleStream]).1 ++ [sampleStream])).2 =
      [Event.acquireLock, Event.releaseLock,
        Event.netSend ⟨[sampleStream]⟩] ++
        (if true then [] else [Event.stderrPrint]) :=
  ⟨(flush_failure_discards_batch [sampleStream] [sampleStream] true
      (by decide) (List.cons_ne_nil _ _) (by decide)).2.2.1,
    (flush_failure_discards_batch [sampleStream] [sampleStream] true
      (by decide) (List.cons_ne_nil _ _) (by decide)).2.2.2⟩

/-- The stream entry appended by one sink.rs `log` call made with an empty
ambient property bag. -/
def mkSinkEntry (labels : List (String × String)) (r : LogRecord)
    (t : String) : LokiStream :=
  ⟨labels, [(t, insertStd r [])]⟩

/-- The request appended by one lib.rs `log` call made with an empty
ambient property bag. -/
def mkLibReq (gl : List (String × String)) (r : LogRecord) (t : String) :
    LokiRequest :=
  ⟨[⟨gl, [(t, insertStd r [])]⟩]⟩

/-- The five standard-property guard drops at the end of `log` restore an
empty bag to empty: the snapshot keys they inserted are exactly the ones
they remove. -/
theorem removeStd_insertStd (r : LogRecord) :
    removeStd (insertStd r []) = [] :=
  rfl

/-- A sink.rs `log` call whose append stays strictly below the batch
limit: enrich, snapshot, append, no flush, guards drop. -/
theorem sinkLog_below_limit (labels : List (String × String)) (r : LogRecord)
    (t : String) (bag : List (String × Json)) (buf : List LokiStream)
    (h : buf.length + 1 < BATCH_LIMIT) :
    sinkLog labels r t true true bag buf =
      (removeStd (insertStd r bag),
        buf ++ [⟨labels, [(t, insertStd r bag)]⟩], []) := by
  have hnf : ¬ (BATCH_LIMIT ≤ buf.length + 1) := by omega
  simp [sinkLog, hnf]

/-- A sink.rs flush on a buffer of exactly `BATCH_LIMIT` entries drains
all of them in one payload. -/
theorem sinkFlush_exact (netOk : Bool) (buf : List LokiStream)
    (h : buf.length = BATCH_LIMIT) :
    sinkFlush true netOk buf =
      ([], [Event.acquireLock, Event.releaseLock, Event.netSend ⟨buf⟩] ++
        (if netOk then [] else [Event.stderrPrint])) := by
  have hB : BATCH_LIMIT = 1000 := rfl
  have h0 : ¬ (min buf.length BATCH_LIMIT = 0) := by omega
  have hm : min buf.length BATCH_LIMIT = buf.length := by omega
  have hstep : sinkFlush true netOk buf =
      (buf.drop (min buf.length BATCH_LIMIT),
        [Event.acquireLock, Event.releaseLock,
          Event.netSend ⟨buf.take (min buf.length BATCH_LIMIT)⟩] ++
        (if netOk then [] else [Event.stderrPrint])) := by
    simp only [sinkFlush]
    rw [if_neg h0]
  rw [hstep, hm, List.take_length, List.drop_length]

/-- A sink.rs `log` call whose append reaches the batch limit exactly:
the inline flush drains the whole buffer into one network send. -/
theorem sinkLog_at_limit (labels : List (String × String)) (r : LogRecord)
    (t : String) (bag : List (String × Json)) (buf : List LokiStream)
    (h : buf.length + 1 = BATCH_LIMIT) :
    sinkLog labels r t true true bag buf =
      (removeStd (insertStd r bag), [],
        [Event.acquireLock, Event.releaseLock,
          Event.netSend ⟨buf ++ [⟨labels, [(t, insertStd r bag)]⟩]⟩]) := by
  have hlen1 : (buf ++ [(⟨labels, [(t, insertStd r bag)]⟩ : LokiStream)]).length
      = BATCH_LIMIT := by
    rw [List.length_append]
    simp only [List.length_cons, List.length_nil]
    omega
  have hge : BATCH_LIMIT ≤ buf.length + 1 := by omega
  simp [sinkLog, hge, sinkFlush_exact true _ hlen1]

/-- Execution state for repeated `log` calls on one thread: property bag,
buffer and accumulated event trace. -/
structure SinkRunState where
  bag : List (String × Json)
  buffer : List LokiStream
  events : List Event

/-- One sink.rs `log` call in the sequential setting (no lock contention,
successful network). -/
def sinkStep (labels : List (String × String)) (r : LogRecord) (t : String)
    (s : SinkRunState) : SinkRunState :=
  ⟨(sinkLog labels r t true true s.bag s.buffer).1,
    (sinkLog labels r t true true s.bag s.buffer).2.1,
    s.events ++ (sinkLog labels r t true true s.bag s.buffer).2.2⟩

/-- `n` sequential sink.rs `log` calls starting from a fresh sink and an
empty property bag; call `i` logs record `recs i` at time `times i`. -/
def sinkRun (labels : List (String × String)) (recs : Nat → LogRecord)
    (times : Nat → String) : Nat → SinkRunState
  | 0 => ⟨[], [], []⟩
  | n + 1 => sinkStep labels (recs n) (times n) (sinkRun labels recs times n)

theorem sinkRun_below_limit (labels : List (String × String))
    (recs : Nat → LogRecord) (times : Nat → String) :
    ∀ n, n < BATCH_LIMIT →
      sinkRun labels recs times n =
        ⟨[], (List.range n).map
          (fun i => mkSinkEntry labels (recs i) (times i)), []⟩ := by
  intro n
  induction n with
  | zero => intro _; rfl
  | succ k ih =>
    intro h
    have hB : BATCH_LIMIT = 1000 := rfl
    have hk : k < BATCH_LIMIT := by omega
    have hlen : ((List.range k).map
        (fun i => mkSinkEntry labels (recs i) (times i))).length + 1
        < BATCH_LIMIT := by
      rw [List.length_map, List.length_range]
      omega
    rw [sinkRun, ih hk]
    simp only [sinkStep, sinkLog_below_limit labels (recs k) (times k) []
      _ hlen]
    simp [removeStd_insertStd, List.range_succ, mkSinkEntry]

theorem sinkRun_at_limit (labels : List (String × String))
    (recs : Nat → LogRecord) (times : Nat → String) :
    sinkRun labels recs times BATCH_LIMIT =
      ⟨[], [],
        [Event.acquireLock, Event.releaseLock,
          Event.netSend ⟨(List.range BATCH_LIMIT).map
            (fun i => mkSinkEntry labels (recs i) (times i))⟩]⟩ := by
  have hstep : sinkRun labels recs times BATCH_LIMIT =
      sinkStep labels (recs 999) (times 999) (sinkRun labels recs times 999) :=
    rfl
  have h999 := sinkRun_below_limit labels recs times 999 (by decide)
  have hlen : ((List.range 999).map
      (fun i => mkSinkEntry labels (recs i) (times i))).length + 1
      = BATCH_LIMIT := by
    rw [List.length_map, List.length_range]
    rfl
  rw [hstep, h999]
  simp only [sinkStep, sinkLog_at_limit labels (recs 999) (times 999) []
    _ hlen]
  simp only [removeStd_insertStd]
  have hrange : (List.range BATCH_LIMIT).map
      (fun i => mkSinkEntry labels (recs i) (times i)) =
      (List.range 999).map (fun i => mkSinkEntry labels (recs i) (times i))
        ++ [mkSinkEntry labels (recs 999) (times 999)] := by
    have : BATCH_LIMIT = Nat.succ 999 := rfl
    rw [this, List.range_succ, List.map_append]
    rfl
  rw [hrange]
  rfl

/-- Execution state for repeated lib.rs `log` calls on one thread; the
whole state is `none` once a call has panicked. -/
structure LibRunState where
  bag : List (String × Json)
  buffer : List LokiRequest
  events : List Event

/-- One lib.rs `log` call in the sequential setting (no lock contention,
successful network); a panic poisons the run. -/
def libStep (gl : List (String × String)) (r : LogRecord) (t : String) :
    Option LibRunState → Option LibRunState
  | none => none
  | some s =>
    match libLog (some gl) r t true true s.bag s.buffer with
    | none => none
    | some out => some ⟨out.1, out.2.1, s.events ++ out.2.2⟩

/-- `n` sequential lib.rs `log` calls starting from a fresh sink with
global labels `gl` and an empty property bag. -/
def libRun (gl : List (String × String)) (recs : Nat → LogRecord)
    (times : Nat → String) : Nat → Option LibRunState
  | 0 => some ⟨[], [], []⟩
  | n + 1 => libStep gl (recs n) (times n) (libRun gl recs times n)

/-- A lib.rs `log` call on a non-filtered record whose append stays
strictly below the flush limit. -/
theorem libLog_below_limit (gl : List (String × String)) (r : LogRecord)
    (t : String) (bag : List (String × Json)) (buf : List LokiRequest)
    (hf : strContains r.target "ureq" = false)
    (h : buf.length + 1 < BUFFER_FLUSH_LIMIT) :
    libLog (some gl) r t true true bag buf =
      some (removeStd (insertStd r bag),
        buf ++ [⟨[⟨gl, [(t, insertStd r bag)]⟩]⟩], []) := by
  have hnf : ¬ (BUFFER_FLUSH_LIMIT ≤ buf.length + 1) := by omega
  simp [libLog, hf, hnf]

/-- A lib.rs `log` call on a non-filtered record whose append reaches the
flush limit exactly: the inline flush drains the whole buffer into one
network send performed under the write guard. -/
theorem libLog_at_limit (gl : List (String × String)) (r : LogRecord)
    (t : String) (bag : List (String × Json)) (buf : List LokiRequest)
    (hf : strContains r.target "ureq" = false)
    (h : buf.length + 1 = BUFFER_FLUSH_LIMIT) :
    libLog (some gl) r t true true bag buf =
      some (removeStd (insertStd r bag), [],
        [Event.acquireLock,
          Event.netSend ⟨((buf ++
            [(⟨[⟨gl, [(t, insertStd r bag)]⟩]⟩ : LokiRequest)]).map
            LokiRequest.streams).flatten⟩,
          Event.releaseLock]) := by
  have hge : BUFFER_FLUSH_LIMIT ≤ buf.length + 1 := by omega
  simp [libLog, hf, hge, libFlush]

theorem libRun_below_limit (gl : List (String × String))
    (recs : Nat → LogRecord) (times : Nat → String)
    (hf : ∀ i, strContains (recs i).target "ureq" = false) :
    ∀ n, n < BUFFER_FLUSH_LIMIT →
      libRun gl recs times n =
        some ⟨[], (List.range n).map
          (fun i => mkLibReq gl (recs i) (times i)), []⟩ := by
  intro n
  induction n with
  | zero => intro _; rfl
  | succ k ih =>
    intro h
    have hB : BUFFER_FLUSH_LIMIT = 1000 := rfl
    have hk : k < BUFFER_FLUSH_LIMIT := by omega
    have hlen : ((List.range k).map
        (fun i => mkLibReq gl (recs i) (times i))).length + 1
        < BUFFER_FLUSH_LIMIT := by
      rw [List.length_map, List.length_range]
      omega
    rw [libRun, ih hk]
    simp only [libStep, libLog_below_limit gl (recs k) (times k) [] _
      (hf k) hlen]
    simp [removeStd_insertStd, List.range_succ, mkLibReq]

theorem flatten_map_singleton {α β : Type} (f : α → β) (l : List α) :
    (l.map (fun x => [f x])).flatten = l.map f := by
  induction l with
  | nil => rfl
  | cons x rest ih => simp [ih]

theorem libRun_at_limit (gl : List (String × String))
    (recs : Nat → LogRecord) (times : Nat → String)
    (hf : ∀ i, strContains (recs i).target "ureq" = false) :
    libRun gl recs times BUFFER_FLUSH_LIMIT =
      some ⟨[], [],
        [Event.acquireLock,
          Event.netSend ⟨(List.range BUFFER_FLUSH_LIMIT).map
            (fun i => (⟨gl, [(times i, insertStd (recs i) [])]⟩ :
              LokiStream))⟩,
          Event.releaseLock]⟩ := by
  have hstep : libRun gl recs times BUFFER_FLUSH_LIMIT =
      libStep gl (recs 999) (times 999) (libRun gl recs times 999) := rfl
  have h999 := libRun_below_limit gl recs times hf 999 (by decide)
  have hlen : ((List.range 999).map
      (fun i => mkLibReq gl (recs i) (times i))).length + 1
      = BUFFER_FLUSH_LIMIT := by
    rw [List.length_map, List.length_range]
    rfl
  rw [hstep, h999]
  simp only [libStep, libLog_at_limit gl (recs 999) (times 999) [] _
    (hf 999) hlen]
  simp only [removeStd_insertStd]
  have hbuf : (List.range BUFFER_FLUSH_LIMIT).map
      (fun i => mkLibReq gl (recs i) (times i))
      = (List.range 999).map (fun i => mkLibReq gl (recs i) (times i))
        ++ [(⟨[⟨gl, [(times 999, insertStd (recs 999) [])]⟩]⟩ :
          LokiRequest)] := by
    have h1000 : BUFFER_FLUSH_LIMIT = Nat.succ 999 := rfl
    rw [h1000, List.range_succ, List.map_append]
    simp only [List.map_cons, List.map_nil, mkLibReq]
  rw [← hbuf]
  have hpay : ((List.range BUFFER_FLUSH_LIMIT).map
      (fun i => mkLibReq gl (recs i) (times i))).map LokiRequest.streams
      = (List.range BUFFER_FLUSH_LIMIT).map
          (fun i => [(⟨gl, [(times i, insertStd (recs i) [])]⟩ :
            LokiStream)]) := by
    rw [List.map_map]
    rfl
  rw [hpay]
  simp only [flatten_map_singleton]
  rfl

/-- C6: starting from a fresh sink and an empty property bag, `log` called
`n` times with `n` strictly below the batch limit leaves exactly `n`
entries buffered and performs zero network calls, in both variants
(lib.rs records non-filtered); called exactly `BATCH_LIMIT` (= 1000)
times it triggers exactly one flush that drains exactly the 1000 buffered
entries in order, leaving the buffer empty. -/
theorem log_batching_thresholds (labels gl : List (String × String))
    (recs : Nat → LogRecord) (times : Nat → String)
    (hf : ∀ i, strContains (recs i).target "ureq" = false) :
    (∀ n, n < BATCH_LIMIT →
      (sinkRun labels recs times n).buffer.length = n ∧
      sentCount (sinkRun labels recs times n).events = 0 ∧
      ∃ s, libRun gl recs times n = some s ∧
        s.buffer.length = n ∧ sentCount s.events = 0) ∧
    ((sinkRun labels recs times BATCH_LIMIT).buffer = [] ∧
      (sinkRun labels recs times BATCH_LIMIT).events =
        [Event.acquireLock, Event.releaseLock,
          Event.netSend ⟨(List.range BATCH_LIMIT).map
            (fun i => mkSinkEntry labels (recs i) (times i))⟩] ∧
      sentCount (sinkRun labels recs times BATCH_LIMIT).events = 1 ∧
      ((List.range BATCH_LIMIT).map
        (fun i => mkSinkEntry labels (recs i) (times i))).length
        = BATCH_LIMIT) ∧
    (∃ s, libRun gl recs times BUFFER_FLUSH_LIMIT = some s ∧
      s.buffer = [] ∧ sentCount s.events = 1 ∧
      ((List.range BUFFER_FLUSH_LIMIT).map
        (fun i => (⟨gl, [(times i, insertStd (recs i) [])]⟩ :
          LokiStream))).length = BUFFER_FLUSH_LIMIT) := by
  refine ⟨?_, ?_, ?_⟩
  · intro n hn
    rw [sinkRun_below_limit labels recs times n hn,
      libRun_below_limit gl recs times hf n hn]
    exact ⟨by simp, rfl, ⟨_, rfl, by simp, rfl⟩⟩
  · rw [sinkRun_at_limit labels recs times]
    exact ⟨rfl, rfl, rfl, by simp [BATCH_LIMIT]⟩
  · rw [libRun_at_limit gl recs times hf]
    exact ⟨_, rfl, rfl, rfl, by simp [BUFFER_FLUSH_LIMIT]⟩

theorem log_batching_thresholds_witness :
    (sinkRun [] (fun _ => sampleRec) (fun _ => "1") 2).buffer.length = 2 ∧
    sentCount (sinkRun [] (fun _ => sampleRec) (fun _ => "1") 2).events
      = 0 :=
  ⟨((log_batching_thresholds [] [] (fun _ => sampleRec) (fun _ => "1")
      (fun _ => (by decide : strContains sampleRec.target "ureq" = false))).1
      2 (by decide)).1,
    ((log_batching_thresholds [] [] (fun _ => sampleRec) (fun _ => "1")
      (fun _ => (by decide : strContains sampleRec.target "ureq" = false))).1
      2 (by decide)).2.1⟩
